import Mathlib

/-!
# Verification of the SOZOW mentor-matching core (`src/app.py`)

Shallow embedding of the matching/scoring engine of `app.py`:
availability matching (`is_time_slot_match`), the eligibility gate,
the game-affinity scorer, the textual-similarity scorer
(`calculate_text_similarity`), and the ranking block of the UI.

Conventions of the embedding:
* Spreadsheet rows (pandas `Series`) are association lists of
  string-valued cells, looked up by column label (first match), which is
  how `Series.get`/`Series[col]` behave on the frames built by
  `get_all_records`.
* Python strings are Lean `String`s; the character-level operations
  (strip, split, replace, substring test) are re-implemented
  structurally over `String.data` so that concrete runs reduce inside
  the kernel.
* `pd.to_numeric(·, errors="coerce")` is modelled for integer-formatted
  cells (the proficiency levels and capacities the sheet holds);
  a cell that does not parse is `none` (NaN), and every `NaN >= 2`
  comparison is false, as in pandas.
* Python `int(str)` raising `ValueError` is modelled with `Except`.
* `CountVectorizer` + `cosine_similarity` on two documents: the
  default tokenizer lowercases and keeps maximal runs of at least two
  word characters; the similarity of the two count vectors is
  `dot / (sqrt nu * sqrt nv)`.  Since all counts are non-negative this
  value equals `Real.sqrt (dot^2 / (nu * nv))`, so the embedding
  computes the (rational) square `dot^2 / (nu * nv)` and interprets it
  through `Real.sqrt`; the lemma `cosine_eq_sqrt_sq` justifies the
  representation.  `fit_transform` raises on an empty vocabulary,
  which the embedding models with `Except`.
-/

/-- A spreadsheet row: ordered association list of (column label, cell text). -/
abbrev Series := List (String × String)

/-- First-match lookup, i.e. `row.get(label)` on a pandas `Series`. -/
def sget : Series → String → Option String
  | [], _ => none
  | (k, v) :: rest, key => if k = key then some v else sget rest key

/-- `row.get(label, default)`. -/
def sgetD (s : Series) (key default : String) : String :=
  (sget s key).getD default

/-- Python whitespace for `str.strip` (ASCII whitespace and the
ideographic space that appears in the sheets). -/
def isPySpace (c : Char) : Bool :=
  c = ' ' || c = '\t' || c = '\n' || c = '\r' ||
  c = '\x0b' || c = '\x0c' || c = '　'

/-- `str.strip()`. -/
def pyStrip (s : String) : String :=
  ⟨(((s.data.dropWhile isPySpace).reverse.dropWhile isPySpace).reverse)⟩

/-- ASCII lowercasing, which is all `str.lower()` does on the
alphanumerics and Japanese text the program handles. -/
def pyLower (s : String) : String :=
  ⟨s.data.map Char.toLower⟩

/-- Does `needle` occur as a contiguous sublist of `hay`? -/
def occursIn (needle : List Char) : List Char → Bool
  | [] => needle.isEmpty
  | c :: rest => needle.isPrefixOf (c :: rest) || occursIn needle rest

/-- Python `needle in hay` on strings. -/
def pyIn (needle hay : String) : Bool :=
  occursIn needle.data hay.data

/-- Python `s.startswith(p)`. -/
def strStarts (p s : String) : Bool :=
  p.data.isPrefixOf s.data

/-- Split on a single-character separator, keeping empty fields:
Python `s.split(sep)` for the one-character separators the program
uses (`","`, `"["`, `"〜"`). -/
def splitChAux (sep : Char) : List Char → List Char → List (List Char)
  | [], cur => [cur.reverse]
  | c :: rest, cur =>
    if c = sep then cur.reverse :: splitChAux sep rest []
    else splitChAux sep rest (c :: cur)

/-- Python `s.split(sep)` for a one-character `sep`. -/
def pySplit (s : String) (sep : Char) : List String :=
  (splitChAux sep s.data []).map (fun l => ⟨l⟩)

/-- One bounded-fuel step list replacement; fuel `≥ s.length` makes it
total.  Models Python `s.replace(pat, rep)` for non-empty `pat`. -/
def replaceFuel (pat rep : List Char) : Nat → List Char → List Char
  | 0, s => s
  | _ + 1, [] => []
  | fuel + 1, c :: rest =>
    if pat.isPrefixOf (c :: rest) then
      rep ++ replaceFuel pat rep fuel ((c :: rest).drop pat.length)
    else
      c :: replaceFuel pat rep fuel rest

/-- Python `s.replace(pat, rep)` (all occurrences, non-empty `pat`). -/
def pyReplace (s pat rep : String) : String :=
  ⟨replaceFuel pat.data rep.data s.data.length s.data⟩

/-- Digit value of a decimal digit character. -/
def digVal (c : Char) : Nat := c.toNat - '0'.toNat

/-- Parse a non-empty all-digit character list. -/
def parseDigits (l : List Char) : Option Nat :=
  if l ≠ [] ∧ l.all Char.isDigit then
    some (l.foldl (fun a c => 10 * a + digVal c) 0)
  else none

/-- Signed integer literal parser shared by the `int(...)` and
`pd.to_numeric` models. -/
def parseInt (s : String) : Option Int :=
  match (pyStrip s).data with
  | [] => none
  | c :: rest =>
    if c = '+' then (parseDigits rest).map (fun n => (n : Int))
    else if c = '-' then (parseDigits rest).map (fun n => -(n : Int))
    else (parseDigits (c :: rest)).map (fun n => (n : Int))

/-- Python `int(str)`: raises `ValueError` on a non-integer string. -/
def pyInt (s : String) : Except String Int :=
  match parseInt s with
  | some n => .ok n
  | none => .error "ValueError: invalid literal for int()"

/-- `pd.to_numeric(cell, errors="coerce")` on integer-formatted cells;
`none` is NaN. -/
def toNumeric (s : String) : Option Int := parseInt s

/-- Word characters of the `CountVectorizer` token pattern
`(?u)\b\w\w+\b`: ASCII alphanumerics, underscore, and the Japanese
letter ranges (hiragana, katakana including the prolonged sound mark,
CJK unified ideographs) that occur in the profile texts. -/
def isWordChar (c : Char) : Bool :=
  c.isAlphanum || c = '_' ||
  (0x3041 ≤ c.toNat && c.toNat ≤ 0x309F) ||
  (0x30A1 ≤ c.toNat && c.toNat ≤ 0x30FF) ||
  (0x4E00 ≤ c.toNat && c.toNat ≤ 0x9FFF)

/-- Collect maximal word-character runs of length at least two
(`cur` holds the current run, reversed). -/
def tokensAux : List Char → List Char → List (List Char)
  | [], cur => if 2 ≤ cur.length then [cur.reverse] else []
  | c :: rest, cur =>
    if isWordChar c then tokensAux rest (c :: cur)
    else if 2 ≤ cur.length then cur.reverse :: tokensAux rest []
    else tokensAux rest []

/-- `CountVectorizer` default analyzer: lowercase, then keep maximal
runs of at least two word characters. -/
def tokens (s : String) : List (List Char) :=
  tokensAux (s.data.map Char.toLower) []

/-- First-occurrence deduplication (the vocabulary is a set; only the
underlying set of a document pair matters to the similarity). -/
def nubList : List (List Char) → List (List Char)
  | [] => []
  | x :: xs => x :: (nubList xs).filter (· ≠ x)

deriving instance DecidableEq for Except

/-- Square of the cosine similarity `calculate_text_similarity`
computes, as an exact unreduced fraction `(numerator, denominator)`
with positive denominator (the cosine value is
`dot / (sqrt nu * sqrt nv) = sqrt (dot^2 / (nu * nv))`, see
`cosine_eq_sqrt_sq`); `.error` models the `ValueError` that
`fit_transform` raises when the two documents produce an empty
vocabulary.  The guard mirrors `if not text1 or not text2: return 0.0`,
and a zero count vector is normalized to zero by sklearn, giving
similarity `0`. -/
def calculate_text_similarity_sq (text1 text2 : String) :
    Except String (Nat × Nat) :=
  if text1 = "" ∨ text2 = "" then .ok (0, 1)
  else
    let w1 := tokens text1
    let w2 := tokens text2
    if w1 = [] ∧ w2 = [] then .error "ValueError: empty vocabulary"
    else
      let vocab := nubList (w1 ++ w2)
      let dot : Nat := (vocab.map (fun v => w1.count v * w2.count v)).sum
      let nu : Nat := (vocab.map (fun v => w1.count v * w1.count v)).sum
      let nv : Nat := (vocab.map (fun v => w2.count v * w2.count v)).sum
      if nu = 0 ∨ nv = 0 then .ok (0, 1)
      else .ok (dot ^ 2, nu * nv)

/-- Interpretation of the squared-similarity fraction as the real
cosine value. -/
noncomputable def simOfSq (p : Nat × Nat) : ℝ :=
  Real.sqrt ((p.1 : ℝ) / (p.2 : ℝ))

/-- The real-valued similarity of `calculate_text_similarity`. -/
noncomputable def calculate_text_similarity (text1 text2 : String) :
    Except String ℝ :=
  (calculate_text_similarity_sq text1 text2).map simOfSq

/-- Justification of the square representation: for non-negative
`dot` and positive `nu`, `nv`, the cosine value
`dot / (sqrt nu * sqrt nv)` is exactly `sqrt (dot^2 / (nu * nv))`. -/
theorem cosine_eq_sqrt_sq (dot nu nv : ℝ) (hd : 0 ≤ dot) (hu : 0 < nu)
    (hv : 0 < nv) :
    dot / (Real.sqrt nu * Real.sqrt nv) = Real.sqrt (dot ^ 2 / (nu * nv)) := by
  rw [Real.sqrt_div' (dot ^ 2) (by positivity), Real.sqrt_sq hd,
    ← Real.sqrt_mul hu.le]

/-! ## Column labels used by the scoring core -/

def strengthsKey : String := "お子さまの得意なこと、好きなことを教えてください"

def interestKey : String := "興味がある分野をお答えください"

def expectationKey : String :=
  "お子さまがSOZOWスクールに期待していること、楽しみにしていることなどを教えてください"

def studentGenderKey : String := "お子さまの性別"

def genderPrefKey : String := "メンターの性別のご希望"

def mentorGenderKey : String := "属性_性別"

def capacityKey : String := "追加可能人数"

def hobbyKey : String := "得意なこと趣味興味のあること"

def supportKey : String := "特にどんなスクール生のサポートが得意か"

def otherGamesKey : String := "ゲーム_その他"

/-! ## Availability matching (`is_time_slot_match`) -/

def weekdayTokens : List String := ["月", "火", "水", "木", "金", "土", "日"]

/-- Candidate slots contributed by one student column: the column must
contain `定期的`, `[` and `]`, and a non-blank value; the value is
split on commas into weekday tokens, the hour label is read from the
column name (`col.split("[")[-1].split("〜")[0]`, full-width colon
normalized, stripped, colons removed).  The `try/except` of the source
can never fire on string cells, so no error case remains. -/
def slotsOfDecl (col value : String) : List String :=
  if pyIn "定期的" col && pyIn "[" col && pyIn "]" col
      && (pyStrip value != "") then
    let hour :=
      pyReplace
        (pyStrip (pyReplace ((pySplit ((pySplit col '[').getLastD "") '〜').headD "")
          "：" ":")) ":" ""
    ((pySplit value ',').map pyStrip).filterMap (fun d =>
      if d ∈ weekdayTokens then
        some ("1on1可能時間_" ++ d ++ "_" ++ hour ++ "-")
      else none)
  else []

/-- All candidate slots of a student, in column order. -/
def possibleSlots (student : Series) : List String :=
  student.foldr (fun kv acc => slotsOfDecl kv.1 kv.2 ++ acc) []

/-- A mentor matches when any candidate slot column holds a cell whose
stripped, lowercased text is `"true"`. -/
def is_time_slot_match (student mentor : Series) : Bool :=
  (possibleSlots student).any (fun slot =>
    pyLower (pyStrip (sgetD mentor slot "")) == "true")

/-! ## Game synonym table (`get_game_word_map`) -/

/-- Python-dict assignment on an association list: overwrite the value
if the key exists, else append (preserving dict insertion order). -/
def upsert (m : List (String × String)) (k v : String) :
    List (String × String) :=
  if (sget m k).isSome then
    m.map (fun kv => if kv.1 = k then (k, v) else kv)
  else m ++ [(k, v)]

/-- `get_game_word_map`: first column is the canonical name, the second
holds comma-separated aliases; every non-blank alias maps to the
canonical name, and `game_list_words` is the key order of the map.
(A structurally empty row, on which `row[0]` would raise, is skipped;
the sheet reader never produces one.) -/
def get_game_word_map (rows : List (List String)) :
    List (String × String) × List String :=
  let w2c := rows.foldl (fun acc row =>
    match row with
    | [] => acc
    | c0 :: rest =>
      let canonical := pyStrip c0
      let aliases := canonical :: (match rest with
        | r1 :: _ => if r1 ≠ "" then (pySplit r1 ',').map pyStrip else []
        | [] => [])
      aliases.foldl (fun a w => if w ≠ "" then upsert a w canonical else a) acc) []
  (w2c, w2c.map Prod.fst)

/-! ## Game-affinity scoring -/

/-- Accumulator of the two game-match loops: the set of matched
canonical names (a deduplicating list models the Python `set`; it is
read only through membership) and the running maximum point value. -/
structure GameAcc where
  matched : List String
  maxPt : Int
deriving DecidableEq

/-- `matched_games_canonical.add(canonical)` plus
`if point > max_game_point: max_game_point = point`. -/
def addMatch (acc : GameAcc) (canonical : String) (pt : Int) : GameAcc :=
  { matched := if canonical ∈ acc.matched then acc.matched
               else acc.matched ++ [canonical]
    maxPt := if acc.maxPt < pt then pt else acc.maxPt }

/-- Match condition of the structured loop:
`(game_name.lower() in g_word.lower() or g_word.lower() in
game_name.lower()) and g_word in student_text`. -/
def structCond (studentText gameName gWord : String) : Bool :=
  (pyIn (pyLower gameName) (pyLower gWord) ||
   pyIn (pyLower gWord) (pyLower gameName)) && pyIn gWord studentText

/-- Inner loop of the structured channel over `game_list_words`. -/
def gameInnerLoop (studentText gameName : String) (pt : Int)
    (w2c : List (String × String)) : List String → GameAcc → GameAcc
  | [], acc => acc
  | g :: gs, acc =>
    gameInnerLoop studentText gameName pt w2c gs
      (if structCond studentText gameName g then
        addMatch acc (sgetD w2c g g) pt
      else acc)

/-- Outer loop of the structured channel over the mentor's columns:
`ゲーム_`-columns other than `ゲーム_その他` whose numeric value is at
least 2 contribute `int(value) * 5` candidate points through the inner
loop. -/
def gameStructLoop (studentText : String) (glw : List String)
    (w2c : List (String × String)) : List (String × String) → GameAcc → GameAcc
  | [], acc => acc
  | (col, val) :: rest, acc =>
    gameStructLoop studentText glw w2c rest
      (if strStarts "ゲーム_" col && col != otherGamesKey then
        match toNumeric val with
        | some v =>
          if 2 ≤ v then
            gameInnerLoop studentText (pyReplace col "ゲーム_" "") (v * 5) w2c glw acc
          else acc
        | none => acc
      else acc)

/-- The separator class of `re.split(r"[、,/\s\n]+", ...)`. -/
def isOtherSep (c : Char) : Bool :=
  c = '、' || c = ',' || c = '/' || c = ' ' || c = '\t' || c = '\n' ||
  c = '\r' || c = '\x0b' || c = '\x0c'

/-- `re.split` on a character class: fields between maximal separator
runs, with an empty field at either end when the string starts or ends
with a separator.  The flag says a separator run is being skipped. -/
def reSplitAux : List Char → List Char → Bool → List (List Char)
  | [], _, true => [[]]
  | [], cur, false => [cur.reverse]
  | c :: rest, cur, skip =>
    if skip then
      if isOtherSep c then reSplitAux rest [] true
      else reSplitAux rest [c] false
    else
      if isOtherSep c then cur.reverse :: reSplitAux rest [] true
      else reSplitAux rest (c :: cur) false

/-- `re.split(r"[、,/\s\n]+", other_games)`. -/
def reSplitSeps (s : String) : List String :=
  (reSplitAux s.data [] false).map (fun l => ⟨l⟩)

/-- The `ゲーム_その他` channel: a word matching both the student text
and some token of the free-text field proposes 15 points. -/
def gameOtherLoop (studentText : String) (otherWords : List String)
    (w2c : List (String × String)) : List String → GameAcc → GameAcc
  | [], acc => acc
  | g :: gs, acc =>
    gameOtherLoop studentText otherWords w2c gs
      (if pyIn g studentText && otherWords.any (fun o => pyIn g o) then
        addMatch acc (sgetD w2c g g) 15
      else acc)

/-- Both game-match loops, in source order (structured columns first,
then the free-text channel). -/
def gameAccOf (studentText : String) (mentor : Series) (glw : List String)
    (w2c : List (String × String)) : GameAcc :=
  gameOtherLoop studentText (reSplitSeps (sgetD mentor otherGamesKey "")) w2c glw
    (gameStructLoop studentText glw w2c mentor ⟨[], 0⟩)

/-! ## `calculate_matching_score` -/

/-- `student_text`: concatenation of the three free-text interest
fields, in source order, with no separator. -/
def studentTextOf (student : Series) : String :=
  sgetD student strengthsKey "" ++ sgetD student interestKey "" ++
    sgetD student expectationKey ""

/-- `mentor_hobby_text`: hobby field, a space, support field. -/
def mentorHobbyTextOf (mentor : Series) : String :=
  sgetD mentor hobbyKey "" ++ " " ++ sgetD mentor supportKey ""

/-- `int(mentor.get("追加可能人数", 0))`: the default is the integer 0,
a present cell goes through `int(...)` and may raise. -/
def capacityE (mentor : Series) : Except String Int :=
  match sget mentor capacityKey with
  | none => .ok 0
  | some v => pyInt v

/-- The positive factors of an eligible pair.  `hobbySimSq` is the
squared-similarity fraction of `student_text` vs `mentor_hobby_text`. -/
structure Parts where
  genderBonus : Int
  maxGamePoint : Int
  matchedGames : List String
  hobbySimSq : Nat × Nat
deriving DecidableEq

/-- Result of `calculate_matching_score`: a gate failure returns score
0 with a single reason; otherwise the score is assembled from
`Parts` (see `scoreOf`). -/
inductive MatchOutcome where
  | gateFail (reason : String)
  | scored (p : Parts)
deriving DecidableEq

/-- The reason fragments appended for an eligible pair, in source
order.  Each fragment is the identifying head of the source f-string;
the formatted tails (the joined game names, the point values) are
elided — `matchedGames`/`maxGamePoint` carry that data.  The gender
fragment is appended exactly when the same-gender branch adds its 10
points, the game fragment when `max_game_point > 0 and
matched_games_canonical`, the hobby fragment when
`hobby_point > 0`, i.e. when the similarity numerator is positive. -/
def reasonsOf (p : Parts) : List String :=
  (if p.genderBonus = 10 then ["性別一致（本人と同じ）"] else []) ++
  (if 0 < p.maxGamePoint ∧ p.matchedGames ≠ [] then ["ゲームマッチ"] else []) ++
  (if 0 < p.hobbySimSq.1 then ["趣味・興味マッチ"] else [])

/-- `if not reasons: reasons.append("最低条件は満たしています")`. -/
def reasonsFinal (p : Parts) : List String :=
  if reasonsOf p = [] then ["最低条件は満たしています"] else reasonsOf p

/-- Everything after the eligibility gate: game loops, then the text
similarity (which may raise). -/
def afterGate (studentText : String) (mentor : Series) (glw : List String)
    (w2c : List (String × String)) (genderBonus : Int) :
    Except String MatchOutcome :=
  match calculate_text_similarity_sq studentText (mentorHobbyTextOf mentor) with
  | .error e => .error e
  | .ok q =>
    .ok (.scored ⟨genderBonus, (gameAccOf studentText mentor glw w2c).maxPt,
      (gameAccOf studentText mentor glw w2c).matched, q⟩)

/-- `calculate_matching_score(student, mentor, game_list_words,
word_to_canonical)`: the sequential gate (time slot, capacity, gender
preference) followed by scoring. -/
def calculate_matching_score (student mentor : Series) (glw : List String)
    (w2c : List (String × String)) : Except String MatchOutcome :=
  if is_time_slot_match student mentor = false then
    .ok (.gateFail "時間帯が一致しない")
  else
    match capacityE mentor with
    | .error e => .error e
    | .ok cap =>
      if cap < 1 then .ok (.gateFail "担当枠が空いていない")
      else
        let mentorGender := pyStrip (sgetD mentor mentorGenderKey "")
        let studentGender := pyStrip (sgetD student studentGenderKey "")
        let pref := pyStrip (sgetD student genderPrefKey "")
        if pref ≠ "" ∧ pref ≠ "指定なし" then
          if pref ≠ mentorGender then .ok (.gateFail "性別希望に一致しない")
          else afterGate (studentTextOf student) mentor glw w2c 0
        else
          if studentGender ≠ "" ∧ studentGender = mentorGender then
            afterGate (studentTextOf student) mentor glw w2c 10
          else afterGate (studentTextOf student) mentor glw w2c 0

/-- The composite score of an eligible pair:
`genderBonus + max_game_point + similarity * 30`. -/
noncomputable def scoreReal (p : Parts) : ℝ :=
  (p.genderBonus : ℝ) + (p.maxGamePoint : ℝ) + simOfSq p.hobbySimSq * 30

/-- Score of an outcome; a gate failure scores 0. -/
noncomputable def scoreOf : MatchOutcome → ℝ
  | .gateFail _ => 0
  | .scored p => scoreReal p

/-! ## The ranking block of the UI (lines 166–185) -/

/-- Decimal digit printer with fuel (`fuel ≥ number of digits`). -/
def natDigitsFuel : Nat → Nat → List Char
  | 0, _ => []
  | fuel + 1, n =>
    if n < 10 then [Char.ofNat ('0'.toNat + n)]
    else natDigitsFuel fuel (n / 10) ++ [Char.ofNat ('0'.toNat + n % 10)]

/-- Decimal rendering of an integer cell. -/
def intStr (z : Int) : String :=
  match z with
  | .ofNat n => ⟨natDigitsFuel (n + 1) n⟩
  | .negSucc m => ⟨'-' :: natDigitsFuel (m + 2) (m + 1)⟩

/-- Line 166: `pd.to_numeric(..., errors="coerce").fillna(0).astype(int)`
applied to the capacity column. -/
def coerceCapacity (mentor : Series) : Series :=
  mentor.map (fun kv =>
    if kv.1 = capacityKey then (kv.1, intStr ((toNumeric kv.2).getD 0)) else kv)

/-- Score every mentor row (an exception in any row aborts the run,
as in the source). -/
noncomputable def scoreAll (student : Series) (glw : List String)
    (w2c : List (String × String)) :
    List Series → Except String (List (Series × ℝ))
  | [] => .ok []
  | m :: ms =>
    match calculate_matching_score student (coerceCapacity m) glw w2c with
    | .error e => .error e
    | .ok r =>
      match scoreAll student glw w2c ms with
      | .error e => .error e
      | .ok rest => .ok ((m, scoreOf r) :: rest)

/-- `mentor_df[mentor_df["マッチングスコア"] > 0]`. -/
noncomputable def filterPos : List (Series × ℝ) → List (Series × ℝ)
  | [] => []
  | x :: xs => if 0 < x.2 then x :: filterPos xs else filterPos xs

/-- The contract of `sort_values("マッチングスコア", ascending=False)`
with the default `kind='quicksort'`: the output is a permutation of
the input that is descending by score.  Pandas documents quicksort as
not stable, so the order among equal scores is unspecified — any
descending permutation is an admissible result, and the sort is
modelled as this relation rather than as a function that would
hard-code one tie order. -/
def IsSortedDescOf (input output : List (Series × ℝ)) : Prop :=
  input.Perm output ∧ output.Pairwise (fun a b => b.2 ≤ a.2)

/-- The ranking block of the UI as a relation on its admissible
outputs: coerce capacities and score every mentor, keep positive
scores, take some descending permutation (tie order unspecified by
the source), `.head(10)`. -/
def RankOutcome (student : Series) (mentors : List Series)
    (glw : List String) (w2c : List (String × String))
    (l : List (Series × ℝ)) : Prop :=
  ∃ scored sorted, scoreAll student glw w2c mentors = .ok scored ∧
    IsSortedDescOf (filterPos scored) sorted ∧ l = sorted.take 10

/-! ## Spec-side definition for claim C3

The claim describes the textual-similarity contribution as the average
of three field-pair similarities scaled by 20; this definition follows
those words (it is compared against the code's single-channel
contribution). -/

/-- Claimed contribution: average of the three field-pair similarities
(student strengths vs mentor hobby, student interest-area vs the same
mentor text, student expectation vs mentor support style), scaled by
weight 20. -/
noncomputable def specThreePairContribution (student mentor : Series) :
    Except String ℝ :=
  match calculate_text_similarity (sgetD student strengthsKey "")
          (sgetD mentor hobbyKey ""),
        calculate_text_similarity (sgetD student interestKey "")
          (sgetD mentor hobbyKey ""),
        calculate_text_similarity (sgetD student expectationKey "")
          (sgetD mentor supportKey "") with
  | .ok a, .ok b, .ok c => .ok (20 * ((a + b + c) / 3))
  | .error e, _, _ => .error e
  | _, .error e, _ => .error e
  | _, _, .error e => .error e

/-! ## Shared concrete profile fragments -/

/-- A recurring-availability student column (17:00 slot). -/
def declCol : String := "定期的な予定[17:00〜18:00]"

/-- The mentor grid column the above declaration generates for Monday. -/
def slotKey : String := "1on1可能時間_月_1700-"

/-! ## Helper lemmas: similarity -/

/-- The squared-similarity fraction always has a positive denominator. -/
theorem simsq_denom_pos {t1 t2 : String} {q : Nat × Nat}
    (h : calculate_text_similarity_sq t1 t2 = .ok q) : 0 < q.2 := by
  unfold calculate_text_similarity_sq at h
  split at h
  · cases h; exact Nat.one_pos
  · dsimp only [] at h
    split at h
    · cases h
    · split at h
      · cases h; exact Nat.one_pos
      · cases h
        rename_i hne
        push_neg at hne
        exact Nat.pos_of_ne_zero (Nat.mul_ne_zero hne.1 hne.2)

/-- `simOfSq` is positive exactly when the numerator is (denominator
positive). -/
theorem simOfSq_pos_iff {q : Nat × Nat} (h : 0 < q.2) :
    0 < simOfSq q ↔ 0 < q.1 := by
  unfold simOfSq
  rw [Real.sqrt_pos]
  constructor
  · intro hd
    by_contra hq
    push_neg at hq
    interval_cases hq1 : q.1
    · simp at hd
  · intro hq
    positivity

/-- `simOfSq (0, 1) = 0`. -/
theorem simOfSq_zero : simOfSq (0, 1) = 0 := by
  unfold simOfSq
  norm_num

/-! ## Helper lemmas: shape of `calculate_matching_score` results -/

/-- A failing time-slot check short-circuits everything else. -/
theorem calc_slot_fail {s m : Series} {glw : List String}
    {w2c : List (String × String)} (h : is_time_slot_match s m = false) :
    calculate_matching_score s m glw w2c = .ok (.gateFail "時間帯が一致しない") := by
  unfold calculate_matching_score
  rw [h, if_pos rfl]

/-- After the slot and capacity gates pass, the result is the gender
branch of the source. -/
theorem calc_after_gates {s m : Series} {glw : List String}
    {w2c : List (String × String)} {c : Int}
    (hslot : is_time_slot_match s m = true)
    (hcap : capacityE m = .ok c) (h1 : 1 ≤ c) :
    calculate_matching_score s m glw w2c =
      (if pyStrip (sgetD s genderPrefKey "") ≠ "" ∧
          pyStrip (sgetD s genderPrefKey "") ≠ "指定なし" then
        if pyStrip (sgetD s genderPrefKey "") ≠ pyStrip (sgetD m mentorGenderKey "") then
          .ok (.gateFail "性別希望に一致しない")
        else afterGate (studentTextOf s) m glw w2c 0
      else if pyStrip (sgetD s studentGenderKey "") ≠ "" ∧
          pyStrip (sgetD s studentGenderKey "") = pyStrip (sgetD m mentorGenderKey "") then
        afterGate (studentTextOf s) m glw w2c 10
      else afterGate (studentTextOf s) m glw w2c 0) := by
  unfold calculate_matching_score
  rw [hslot, hcap]
  simp only [Bool.true_eq_false, if_false, if_neg (not_lt.mpr h1)]

/-- An `afterGate` result that is a scored outcome determines every
field of the parts. -/
theorem afterGate_scored {st : String} {m : Series} {glw : List String}
    {w2c : List (String × String)} {gb : Int} {p : Parts}
    (h : afterGate st m glw w2c gb = .ok (.scored p)) :
    calculate_text_similarity_sq st (mentorHobbyTextOf m) = .ok p.hobbySimSq ∧
    p.genderBonus = gb ∧
    p.maxGamePoint = (gameAccOf st m glw w2c).maxPt ∧
    p.matchedGames = (gameAccOf st m glw w2c).matched := by
  unfold afterGate at h
  cases hs : calculate_text_similarity_sq st (mentorHobbyTextOf m) with
  | error e => rw [hs] at h; cases h
  | ok q =>
    rw [hs] at h
    have hp := MatchOutcome.scored.inj (Except.ok.inj h)
    rw [← hp]
    exact ⟨rfl, rfl, rfl, rfl⟩

/-- `afterGate` never returns a gate failure. -/
theorem afterGate_ne_gateFail {st : String} {m : Series} {glw : List String}
    {w2c : List (String × String)} {gb : Int} {r : String} :
    afterGate st m glw w2c gb ≠ .ok (.gateFail r) := by
  unfold afterGate
  cases hs : calculate_text_similarity_sq st (mentorHobbyTextOf m) with
  | error e => simp
  | ok q => simp

/-- Any scored outcome of `calculate_matching_score` consists of the
similarity fraction of the two concatenated texts, the game-loop
results, and a gender bonus of 0 or 10. -/
theorem calc_scored_shape {s m : Series} {glw : List String}
    {w2c : List (String × String)} {p : Parts}
    (h : calculate_matching_score s m glw w2c = .ok (.scored p)) :
    calculate_text_similarity_sq (studentTextOf s) (mentorHobbyTextOf m) =
      .ok p.hobbySimSq ∧
    p.maxGamePoint = (gameAccOf (studentTextOf s) m glw w2c).maxPt ∧
    p.matchedGames = (gameAccOf (studentTextOf s) m glw w2c).matched ∧
    (p.genderBonus = 0 ∨ p.genderBonus = 10) := by
  unfold calculate_matching_score at h
  split at h
  · cases h
  · split at h
    · cases h
    · rename_i cap heq
      split at h
      · cases h
      · dsimp only [] at h
        split at h
        · split at h
          · cases h
          · have := afterGate_scored h
            exact ⟨this.1, this.2.2.1, this.2.2.2, Or.inl this.2.1⟩
        · split at h
          · have := afterGate_scored h
            exact ⟨this.1, this.2.2.1, this.2.2.2, Or.inr this.2.1⟩
          · have := afterGate_scored h
            exact ⟨this.1, this.2.2.1, this.2.2.2, Or.inl this.2.1⟩

/-- The same-gender reason appears only with its 10-point bonus. -/
theorem gender_frag_not_mem {p : Parts} (h : p.genderBonus ≠ 10) :
    "性別一致（本人と同じ）" ∉ reasonsFinal p := by
  unfold reasonsFinal reasonsOf
  split_ifs <;> simp_all

/-- The hobby-match reason appears exactly when the similarity
numerator is positive. -/
theorem hobby_frag_iff (p : Parts) :
    "趣味・興味マッチ" ∈ reasonsFinal p ↔ 0 < p.hobbySimSq.1 := by
  unfold reasonsFinal reasonsOf
  split_ifs <;> simp_all

/-! ## Claim C1 -/

/-- C1: the claim states that `calculate_matching_score` is total on
every input shape.  The code is not: a non-numeric capacity string
reaches `int(...)` and raises `ValueError`, and a pair of non-empty
but token-less text fields reaches `CountVectorizer.fit_transform`,
which raises `ValueError: empty vocabulary`.  This theorem evaluates
the embedded function at both failing inputs. -/
theorem c1_core_not_total_raises :
    calculate_matching_score [(declCol, "月")]
      [(slotKey, "TRUE"), (capacityKey, "1名")] [] []
      = .error "ValueError: invalid literal for int()" ∧
    calculate_matching_score [(declCol, "月"), (strengthsKey, "!!")]
      [(slotKey, "TRUE"), (capacityKey, "1")] [] []
      = .error "ValueError: empty vocabulary" :=
  ⟨by decide, by decide⟩

/-! ## Claim C6 -/

/-- C6 counterexample: the claim says capacity < 1 forces score 0 with
reason 「担当枠が空いていない」 regardless of every other field,
including the time-slot fields; but the time-slot gate runs first, so
a capacity-0 mentor with no slot match gets the time-slot reason. -/
theorem c6_slot_order_counterexample :
    calculate_matching_score [] [(capacityKey, "0")] [] []
      = .ok (.gateFail "時間帯が一致しない") ∧
    calculate_matching_score [] [(capacityKey, "0")] [] []
      ≠ .ok (.gateFail "担当枠が空いていない") :=
  ⟨by decide, by decide⟩

/-- C6 (amended): once the time-slot check passes, a remaining
capacity below 1 yields score 0 with the single reason
「担当枠が空いていない」, regardless of every remaining student or
mentor field. -/
theorem c6_capacity_gate_after_slot_gate (s m : Series) (glw : List String)
    (w2c : List (String × String)) (c : Int)
    (hslot : is_time_slot_match s m = true)
    (hcap : capacityE m = .ok c) (hc : c < 1) :
    calculate_matching_score s m glw w2c = .ok (.gateFail "担当枠が空いていない") ∧
    scoreOf (.gateFail "担当枠が空いていない") = 0 := by
  refine ⟨?_, rfl⟩
  unfold calculate_matching_score
  rw [hslot, hcap]
  simp only [Bool.true_eq_false, if_false, if_pos hc]

/-- C6 witness: the amended statement at a concrete slot-matching
student and a capacity-0 mentor. -/
theorem c6_witness :
    calculate_matching_score [(declCol, "月")]
      [(slotKey, "TRUE"), (capacityKey, "0")] [] []
      = .ok (.gateFail "担当枠が空いていない") ∧
    scoreOf (.gateFail "担当枠が空いていない") = 0 :=
  c6_capacity_gate_after_slot_gate [(declCol, "月")]
    [(slotKey, "TRUE"), (capacityKey, "0")] [] [] 0
    (by decide) (by decide) (by decide)

/-! ## Claim C2 -/

/-- C2 counterexample: a student whose declared preference 「女」
exactly equals the mentor's gender passes the gate, but the returned
outcome carries no bonus (all parts zero) and only the fallback
reason, not a preference-match reason; the score is 0, not
0 + bonus. -/
theorem c2_pref_match_bonus_counterexample :
    calculate_matching_score [(declCol, "月"), (genderPrefKey, "女")]
      [(slotKey, "TRUE"), (capacityKey, "1"), (mentorGenderKey, "女")] [] []
      = .ok (.scored ⟨0, 0, [], (0, 1)⟩) ∧
    reasonsFinal ⟨0, 0, [], (0, 1)⟩ = ["最低条件は満たしています"] ∧
    scoreOf (.scored ⟨0, 0, [], (0, 1)⟩) = 0 := by
  refine ⟨by decide, by decide, ?_⟩
  show scoreReal ⟨0, 0, [], (0, 1)⟩ = 0
  simp [scoreReal, simOfSq_zero]

/-- C2 (amended): a declared, non-「指定なし」 preference that equals
the mentor's (stripped) gender passes the gender check — the result is
never a gate failure — but the source awards no preference-match bonus
and records no gender reason (`# 一致しても加点なし`): any scored
outcome has `genderBonus = 0` and no gender fragment. -/
theorem c2_pref_match_passes_gate_without_bonus
    (s m : Series) (glw : List String) (w2c : List (String × String)) (c : Int)
    (hslot : is_time_slot_match s m = true)
    (hcap : capacityE m = .ok c) (hc : 1 ≤ c)
    (hne : pyStrip (sgetD s genderPrefKey "") ≠ "")
    (hns : pyStrip (sgetD s genderPrefKey "") ≠ "指定なし")
    (heq : pyStrip (sgetD s genderPrefKey "") = pyStrip (sgetD m mentorGenderKey "")) :
    (∀ r, calculate_matching_score s m glw w2c ≠ .ok (.gateFail r)) ∧
    (∀ p, calculate_matching_score s m glw w2c = .ok (.scored p) →
      p.genderBonus = 0 ∧ "性別一致（本人と同じ）" ∉ reasonsFinal p) := by
  have hbr := @calc_after_gates s m glw w2c c hslot hcap hc
  rw [if_pos ⟨hne, hns⟩, if_neg (not_ne_iff.mpr heq)] at hbr
  constructor
  · intro r h
    rw [hbr] at h
    exact afterGate_ne_gateFail h
  · intro p hp
    rw [hbr] at hp
    have h0 := (afterGate_scored hp).2.1
    exact ⟨h0, gender_frag_not_mem (by rw [h0]; decide)⟩

/-- C2 witness: the amended statement at the counterexample's concrete
profiles. -/
theorem c2_witness :
    (∀ r, calculate_matching_score [(declCol, "月"), (genderPrefKey, "女")]
      [(slotKey, "TRUE"), (capacityKey, "1"), (mentorGenderKey, "女")] [] []
      ≠ .ok (.gateFail r)) ∧
    (∀ p, calculate_matching_score [(declCol, "月"), (genderPrefKey, "女")]
      [(slotKey, "TRUE"), (capacityKey, "1"), (mentorGenderKey, "女")] [] []
      = .ok (.scored p) →
      p.genderBonus = 0 ∧ "性別一致（本人と同じ）" ∉ reasonsFinal p) :=
  c2_pref_match_passes_gate_without_bonus
    [(declCol, "月"), (genderPrefKey, "女")]
    [(slotKey, "TRUE"), (capacityKey, "1"), (mentorGenderKey, "女")] [] [] 1
    (by decide) (by decide) (by decide) (by decide) (by decide) (by decide)

/-! ## Claim C9 -/

/-- Membership is preserved by first-occurrence deduplication. -/
theorem mem_nubList {a : List Char} {l : List (List Char)} (h : a ∈ l) :
    a ∈ nubList l := by
  induction l with
  | nil => cases h
  | cons x xs ih =>
    unfold nubList
    by_cases hax : a = x
    · subst hax; exact List.mem_cons_self _ _
    · rcases List.mem_cons.mp h with h | h
      · exact absurd h hax
      · exact List.mem_cons_of_mem _ (List.mem_filter.mpr ⟨ih h, by simp [hax]⟩)

/-- A list of naturals containing a positive element has positive sum. -/
theorem sum_pos_of_mem {l : List Nat} {a : Nat} (h : a ∈ l) (ha : 0 < a) :
    0 < l.sum := by
  induction l with
  | nil => cases h
  | cons x xs ih =>
    rcases List.mem_cons.mp h with rfl | h
    · simp only [List.sum_cons]; omega
    · have := ih h; simp only [List.sum_cons]; omega

/-- For a non-empty token list, the self-similarity fraction is
`(n^2, n*n)` with `n` the positive squared norm: both count vectors,
and hence the dot product and both norms, coincide. -/
theorem simsq_self {x : String} (hx : tokens x ≠ []) :
    ∃ n : Nat, n ≠ 0 ∧ calculate_text_similarity_sq x x = .ok (n ^ 2, n * n) := by
  have hxe : x ≠ "" := fun h => hx (by rw [h]; rfl)
  have hS : (List.map (fun v => (tokens x).count v * (tokens x).count v)
      (nubList (tokens x ++ tokens x))).sum ≠ 0 := by
    obtain ⟨a, ha⟩ := List.exists_mem_of_ne_nil _ hx
    have hmem : a ∈ nubList (tokens x ++ tokens x) :=
      mem_nubList (List.mem_append_left _ ha)
    have hcnt : 0 < (tokens x).count a := List.count_pos_iff.mpr ha
    exact Nat.pos_iff_ne_zero.mp
      (sum_pos_of_mem (List.mem_map_of_mem _ hmem) (Nat.mul_pos hcnt hcnt))
  refine ⟨_, hS, ?_⟩
  unfold calculate_text_similarity_sq
  rw [if_neg (by simp [hxe])]
  dsimp only []
  rw [if_neg (by simp [hx]), if_neg (by simp [hS])]

/-- C9 counterexample: `"!!"` is a non-empty string, but the
similarity of `"!!"` with itself is not 1 — the call raises
(`ValueError: empty vocabulary`) because its tokenization is empty. -/
theorem c9_identical_text_counterexample :
    "!!" ≠ "" ∧ calculate_text_similarity "!!" "!!" ≠ .ok 1 := by
  refine ⟨by decide, ?_⟩
  unfold calculate_text_similarity
  rw [show calculate_text_similarity_sq "!!" "!!"
      = .error "ValueError: empty vocabulary" from by decide]
  simp [Except.map]

/-- C9 (amended): `similarity(x, "") = 0` and `similarity("", x) = 0`
for every string `x`; and `similarity(x, x) = 1` for every `x` whose
tokenization is non-empty (for a non-empty but token-less `x` the call
raises instead, see the counterexample). -/
theorem c9_similarity_identities (x : String) :
    (calculate_text_similarity x "" = .ok 0 ∧
     calculate_text_similarity "" x = .ok 0) ∧
    (tokens x ≠ [] → calculate_text_similarity x x = .ok 1) := by
  refine ⟨⟨?_, ?_⟩, ?_⟩
  · unfold calculate_text_similarity
    rw [show calculate_text_similarity_sq x "" = .ok (0, 1) from by
      unfold calculate_text_similarity_sq; rw [if_pos (Or.inr rfl)]]
    simp [Except.map, simOfSq_zero]
  · unfold calculate_text_similarity
    rw [show calculate_text_similarity_sq "" x = .ok (0, 1) from by
      unfold calculate_text_similarity_sq; rw [if_pos (Or.inl rfl)]]
    simp [Except.map, simOfSq_zero]
  · intro hx
    obtain ⟨n, hn, hsq⟩ := simsq_self hx
    unfold calculate_text_similarity
    rw [hsq]
    have hone : simOfSq (n ^ 2, n * n) = 1 := by
      unfold simOfSq
      have hnR : (n : ℝ) ≠ 0 := Nat.cast_ne_zero.mpr hn
      push_cast
      rw [sq, div_self (mul_ne_zero hnR hnR), Real.sqrt_one]
    simp [Except.map, hone]

/-- C9 witness: the amended identities at the concrete text `"ab"`. -/
theorem c9_witness :
    (calculate_text_similarity "ab" "" = .ok 0 ∧
     calculate_text_similarity "" "ab" = .ok 0) ∧
    calculate_text_similarity "ab" "ab" = .ok 1 :=
  ⟨(c9_similarity_identities "ab").1, (c9_similarity_identities "ab").2 (by decide)⟩

/-! ## Claim C3 -/

/-- C3 counterexample: for a concrete eligible pair the code's textual
contribution is `30` (one channel: concatenated student text vs
concatenated mentor text, weight 30), while the claimed three-pair
average at weight 20 evaluates to `20/3`. -/
theorem c3_three_pair_average_counterexample :
    calculate_matching_score [(declCol, "月"), (strengthsKey, "hello")]
      [(slotKey, "TRUE"), (capacityKey, "1"), (hobbyKey, "hello")] [] []
      = .ok (.scored ⟨0, 0, [], (1, 1)⟩) ∧
    scoreOf (.scored ⟨0, 0, [], (1, 1)⟩) = 30 ∧
    specThreePairContribution [(declCol, "月"), (strengthsKey, "hello")]
      [(slotKey, "TRUE"), (capacityKey, "1"), (hobbyKey, "hello")]
      = .ok (20 / 3) ∧
    (30 : ℝ) ≠ 20 / 3 := by
  have e1 : calculate_text_similarity "hello" "hello" = .ok 1 := by
    unfold calculate_text_similarity
    rw [show calculate_text_similarity_sq "hello" "hello" = .ok (1, 1) from by decide]
    simp only [Except.map]
    norm_num [simOfSq, Real.sqrt_one]
  have e2 : calculate_text_similarity "" "hello" = .ok 0 := by
    unfold calculate_text_similarity
    rw [show calculate_text_similarity_sq "" "hello" = .ok (0, 1) from by decide]
    simp [Except.map, simOfSq_zero]
  have e3 : calculate_text_similarity "" "" = .ok 0 := by
    unfold calculate_text_similarity
    rw [show calculate_text_similarity_sq "" "" = .ok (0, 1) from by decide]
    simp [Except.map, simOfSq_zero]
  refine ⟨by decide, ?_, ?_, by norm_num⟩
  · show scoreReal ⟨0, 0, [], (1, 1)⟩ = 30
    norm_num [scoreReal, simOfSq, Real.sqrt_one]
  · unfold specThreePairContribution
    rw [show sgetD [(declCol, "月"), (strengthsKey, "hello")] strengthsKey ""
        = "hello" from by decide]
    rw [show sgetD [(declCol, "月"), (strengthsKey, "hello")] interestKey ""
        = "" from by decide]
    rw [show sgetD [(declCol, "月"), (strengthsKey, "hello")] expectationKey ""
        = "" from by decide]
    rw [show sgetD [(slotKey, "TRUE"), (capacityKey, "1"), (hobbyKey, "hello")]
        hobbyKey "" = "hello" from by decide]
    rw [show sgetD [(slotKey, "TRUE"), (capacityKey, "1"), (hobbyKey, "hello")]
        supportKey "" = "" from by decide]
    rw [e1, e2, e3]
    norm_num

/-- C3 (amended): for every eligible pair the textual contribution is
a single channel — the cosine similarity of the whole concatenated
student text against the whole concatenated mentor hobby text — scaled
by 30, and its reason fragment appears exactly when that similarity is
positive (not at threshold 0.15). -/
theorem c3_textual_contribution_single_channel
    (s m : Series) (glw : List String) (w2c : List (String × String)) (p : Parts)
    (h : calculate_matching_score s m glw w2c = .ok (.scored p)) :
    calculate_text_similarity_sq (studentTextOf s) (mentorHobbyTextOf m)
      = .ok p.hobbySimSq ∧
    scoreOf (.scored p) =
      (p.genderBonus : ℝ) + (p.maxGamePoint : ℝ) + 30 * simOfSq p.hobbySimSq ∧
    ("趣味・興味マッチ" ∈ reasonsFinal p ↔ 0 < simOfSq p.hobbySimSq) := by
  obtain ⟨h1, _, _, _⟩ := calc_scored_shape h
  refine ⟨h1, ?_, ?_⟩
  · show scoreReal p = _
    unfold scoreReal
    ring
  · rw [hobby_frag_iff]
    exact (simOfSq_pos_iff (simsq_denom_pos h1)).symm

/-- C3 witness: the amended statement at the counterexample's pair. -/
theorem c3_witness :
    calculate_text_similarity_sq
        (studentTextOf [(declCol, "月"), (strengthsKey, "hello")])
        (mentorHobbyTextOf [(slotKey, "TRUE"), (capacityKey, "1"), (hobbyKey, "hello")])
      = .ok (⟨0, 0, [], (1, 1)⟩ : Parts).hobbySimSq ∧
    scoreOf (.scored ⟨0, 0, [], (1, 1)⟩) =
      ((⟨0, 0, [], (1, 1)⟩ : Parts).genderBonus : ℝ) +
      ((⟨0, 0, [], (1, 1)⟩ : Parts).maxGamePoint : ℝ) +
      30 * simOfSq (⟨0, 0, [], (1, 1)⟩ : Parts).hobbySimSq ∧
    ("趣味・興味マッチ" ∈ reasonsFinal ⟨0, 0, [], (1, 1)⟩ ↔
      0 < simOfSq (⟨0, 0, [], (1, 1)⟩ : Parts).hobbySimSq) :=
  c3_textual_contribution_single_channel
    [(declCol, "月"), (strengthsKey, "hello")]
    [(slotKey, "TRUE"), (capacityKey, "1"), (hobbyKey, "hello")] [] []
    ⟨0, 0, [], (1, 1)⟩ (by decide)

/-! ## Claim C4 -/

/-- Cons with a different key does not change a lookup. -/
theorem sget_cons_ne {k v key : String} {s : Series} (h : k ≠ key) :
    sget ((k, v) :: s) key = sget s key := by
  show (if k = key then some v else sget s key) = sget s key
  rw [if_neg h]

/-- Cons with a different key does not change a defaulted lookup. -/
theorem sgetD_cons_ne {k v key d : String} {s : Series} (h : k ≠ key) :
    sgetD ((k, v) :: s) key d = sgetD s key d := by
  unfold sgetD
  rw [sget_cons_ne h]

/-- A column that is not an availability declaration contributes no
candidate slots. -/
theorem slotsOfDecl_not_decl {k v : String}
    (h : (pyIn "定期的" k && pyIn "[" k && pyIn "]" k) = false) :
    slotsOfDecl k v = [] := by
  have hc : (pyIn "定期的" k && pyIn "[" k && pyIn "]" k &&
      (pyStrip v != "")) = false := by
    cases h1 : pyIn "定期的" k <;> cases h2 : pyIn "[" k <;>
      cases h3 : pyIn "]" k <;> simp_all
  unfold slotsOfDecl
  simp [hc]

/-- `possibleSlots` unfolds one column at a time. -/
theorem possibleSlots_cons (k v : String) (s : Series) :
    possibleSlots ((k, v) :: s) = slotsOfDecl k v ++ possibleSlots s := rfl

/-- C4 counterexample: a pair whose "people I relate well to" text and
mentor personality/support text are identical (similarity 1 > 0.2)
still scores 0 with only the fallback reason — no relation bonus of 10
exists in the code. -/
theorem c4_relation_bonus_counterexample :
    calculate_text_similarity "friend time" "friend time" = .ok 1 ∧
    (0.2 : ℝ) < 1 ∧
    calculate_matching_score
      [(declCol, "月"), ("仲良くなりやすい人のタイプ", "friend time")]
      [(slotKey, "TRUE"), (capacityKey, "1"), (supportKey, "friend time")] [] []
      = .ok (.scored ⟨0, 0, [], (0, 1)⟩) ∧
    scoreOf (.scored ⟨0, 0, [], (0, 1)⟩) = 0 ∧
    reasonsFinal ⟨0, 0, [], (0, 1)⟩ = ["最低条件は満たしています"] := by
  refine ⟨?_, by norm_num, by decide, ?_, by decide⟩
  · unfold calculate_text_similarity
    rw [show calculate_text_similarity_sq "friend time" "friend time"
        = .ok (4, 4) from by decide]
    simp only [Except.map]
    norm_num [simOfSq, Real.sqrt_one]
  · show scoreReal ⟨0, 0, [], (0, 1)⟩ = 0
    norm_num [scoreReal, simOfSq_zero]

/-- C4 (amended): the code has no relation-compatibility channel — the
result is unchanged by any student field whose key is none of the five
the function reads and is not an availability declaration column; in
particular any "people I relate well to" field is ignored. -/
theorem c4_no_relation_channel_field_ignored
    (s m : Series) (glw : List String) (w2c : List (String × String))
    (k v : String)
    (h1 : k ≠ strengthsKey) (h2 : k ≠ interestKey) (h3 : k ≠ expectationKey)
    (h4 : k ≠ studentGenderKey) (h5 : k ≠ genderPrefKey)
    (hd : (pyIn "定期的" k && pyIn "[" k && pyIn "]" k) = false) :
    calculate_matching_score ((k, v) :: s) m glw w2c =
      calculate_matching_score s m glw w2c := by
  have hps : possibleSlots ((k, v) :: s) = possibleSlots s := by
    rw [possibleSlots_cons, slotsOfDecl_not_decl hd]
    rfl
  have hslot : is_time_slot_match ((k, v) :: s) m = is_time_slot_match s m := by
    unfold is_time_slot_match
    rw [hps]
  have hst : studentTextOf ((k, v) :: s) = studentTextOf s := by
    unfold studentTextOf
    rw [sgetD_cons_ne h1, sgetD_cons_ne h2, sgetD_cons_ne h3]
  unfold calculate_matching_score
  rw [hslot, hst, sgetD_cons_ne h4, sgetD_cons_ne h5]

/-- C4 witness: prepending a concrete relate-well-to field to a
concrete student leaves the result unchanged. -/
theorem c4_witness :
    calculate_matching_score
      (("仲良くなりやすい人のタイプ", "friend time") :: [(declCol, "月")])
      [(slotKey, "TRUE"), (capacityKey, "1"), (supportKey, "friend time")] [] []
      = calculate_matching_score [(declCol, "月")]
      [(slotKey, "TRUE"), (capacityKey, "1"), (supportKey, "friend time")] [] [] :=
  c4_no_relation_channel_field_ignored [(declCol, "月")]
    [(slotKey, "TRUE"), (capacityKey, "1"), (supportKey, "friend time")] [] []
    "仲良くなりやすい人のタイプ" "friend time"
    (by decide) (by decide) (by decide) (by decide) (by decide) (by decide)

/-! ## Claim C5 -/

/-- The max-update of `addMatch` is a `max`. -/
theorem addMatch_maxPt (acc : GameAcc) (c : String) (pt : Int) :
    (addMatch acc c pt).maxPt = max acc.maxPt pt := by
  unfold addMatch
  dsimp only []
  split_ifs with h
  · exact (max_eq_right h.le).symm
  · exact (max_eq_left (not_lt.mp h)).symm

/-- `addMatch` records its canonical name. -/
theorem addMatch_mem (acc : GameAcc) (c : String) (pt : Int) :
    c ∈ (addMatch acc c pt).matched := by
  unfold addMatch
  dsimp only []
  split_ifs with h
  · exact h
  · exact List.mem_append_right _ (List.mem_singleton.mpr rfl)

/-- `addMatch` keeps previously recorded names. -/
theorem addMatch_mem_mono {x : String} {acc : GameAcc} (c : String) (pt : Int)
    (h : x ∈ acc.matched) : x ∈ (addMatch acc c pt).matched := by
  unfold addMatch
  dsimp only []
  split_ifs with hc
  · exact h
  · exact List.mem_append_left _ h

/-- The inner game loop never decreases the running maximum. -/
theorem gameInnerLoop_maxPt_mono (st gn : String) (pt : Int)
    (w2c : List (String × String)) (gs : List String) (acc : GameAcc) :
    acc.maxPt ≤ (gameInnerLoop st gn pt w2c gs acc).maxPt := by
  induction gs generalizing acc with
  | nil => exact le_refl _
  | cons g gs ih =>
    show acc.maxPt ≤ (gameInnerLoop st gn pt w2c gs
      (if structCond st gn g then addMatch acc (sgetD w2c g g) pt else acc)).maxPt
    refine le_trans ?_ (ih _)
    split_ifs with hc
    · rw [addMatch_maxPt]; exact le_max_left _ _
    · exact le_refl _

/-- The inner game loop keeps recorded names. -/
theorem gameInnerLoop_matched_mono {x : String} (st gn : String) (pt : Int)
    (w2c : List (String × String)) (gs : List String) {acc : GameAcc}
    (h : x ∈ acc.matched) : x ∈ (gameInnerLoop st gn pt w2c gs acc).matched := by
  induction gs generalizing acc with
  | nil => exact h
  | cons g gs ih =>
    show x ∈ (gameInnerLoop st gn pt w2c gs
      (if structCond st gn g then addMatch acc (sgetD w2c g g) pt else acc)).matched
    refine ih ?_
    split_ifs with hc
    · exact addMatch_mem_mono _ _ h
    · exact h

/-- A word of the synonym list that satisfies the structured match
condition forces its candidate points and canonical name into the
inner-loop result. -/
theorem gameInnerLoop_trigger {st gn g : String} {pt : Int}
    {w2c : List (String × String)} {gs : List String} {acc : GameAcc}
    (hg : g ∈ gs) (hcond : structCond st gn g = true) :
    pt ≤ (gameInnerLoop st gn pt w2c gs acc).maxPt ∧
    sgetD w2c g g ∈ (gameInnerLoop st gn pt w2c gs acc).matched := by
  induction gs generalizing acc with
  | nil => cases hg
  | cons g' gs ih =>
    rcases List.mem_cons.mp hg with heq | hg'
    · subst heq
      show pt ≤ (gameInnerLoop st gn pt w2c gs
          (if structCond st gn g then addMatch acc (sgetD w2c g g) pt else acc)).maxPt ∧
        sgetD w2c g g ∈ (gameInnerLoop st gn pt w2c gs
          (if structCond st gn g then addMatch acc (sgetD w2c g g) pt else acc)).matched
      rw [if_pos hcond]
      constructor
      · refine le_trans ?_ (gameInnerLoop_maxPt_mono st gn pt w2c gs _)
        rw [addMatch_maxPt]
        exact le_max_right _ _
      · exact gameInnerLoop_matched_mono st gn pt w2c gs (addMatch_mem acc _ pt)
    · exact ih hg'

/-- The structured loop never decreases the running maximum. -/
theorem gameStructLoop_maxPt_mono (st : String) (glw : List String)
    (w2c : List (String × String)) (pairs : List (String × String))
    (acc : GameAcc) :
    acc.maxPt ≤ (gameStructLoop st glw w2c pairs acc).maxPt := by
  induction pairs generalizing acc with
  | nil => exact le_refl _
  | cons kv rest ih =>
    obtain ⟨col, val⟩ := kv
    refine le_trans ?_ (ih _)
    split_ifs with h
    · cases hn : toNumeric val with
      | none => exact le_refl _
      | some v =>
        dsimp only []
        split_ifs with hv
        · exact gameInnerLoop_maxPt_mono _ _ _ _ _ _
        · exact le_refl _
    · exact le_refl _

/-- The structured loop keeps recorded names. -/
theorem gameStructLoop_matched_mono {x : String} (st : String)
    (glw : List String) (w2c : List (String × String))
    (pairs : List (String × String)) {acc : GameAcc}
    (h : x ∈ acc.matched) :
    x ∈ (gameStructLoop st glw w2c pairs acc).matched := by
  induction pairs generalizing acc with
  | nil => exact h
  | cons kv rest ih =>
    obtain ⟨col, val⟩ := kv
    refine ih ?_
    split_ifs with hb
    · cases hn : toNumeric val with
      | none => exact h
      | some v =>
        dsimp only []
        split_ifs with hv
        · exact gameInnerLoop_matched_mono _ _ _ _ _ h
        · exact h
    · exact h

/-- A qualifying structured column with a qualifying synonym word
forces its candidate points and canonical name into the
structured-loop result. -/
theorem gameStructLoop_trigger {st : String} {glw : List String}
    {w2c : List (String × String)} {pairs : List (String × String)}
    {acc : GameAcc} {col val g : String} {gv : Int}
    (hmem : (col, val) ∈ pairs)
    (hpre : (strStarts "ゲーム_" col && col != otherGamesKey) = true)
    (hnum : toNumeric val = some gv) (hgv : 2 ≤ gv) (hg : g ∈ glw)
    (hcond : structCond st (pyReplace col "ゲーム_" "") g = true) :
    gv * 5 ≤ (gameStructLoop st glw w2c pairs acc).maxPt ∧
    sgetD w2c g g ∈ (gameStructLoop st glw w2c pairs acc).matched := by
  induction pairs generalizing acc with
  | nil => cases hmem
  | cons kv rest ih =>
    rcases List.mem_cons.mp hmem with heq | hmem'
    · subst heq
      show gv * 5 ≤ (gameStructLoop st glw w2c rest _).maxPt ∧
        sgetD w2c g g ∈ (gameStructLoop st glw w2c rest _).matched
      rw [hpre, if_pos rfl, hnum]
      dsimp only []
      rw [if_pos hgv]
      constructor
      · exact le_trans (gameInnerLoop_trigger hg hcond).1
          (gameStructLoop_maxPt_mono st glw w2c rest _)
      · exact gameStructLoop_matched_mono st glw w2c rest
          (gameInnerLoop_trigger hg hcond).2
    · obtain ⟨c0, v0⟩ := kv
      exact ih hmem'

/-- The free-text channel never decreases the running maximum. -/
theorem gameOtherLoop_maxPt_mono (st : String) (ow : List String)
    (w2c : List (String × String)) (gs : List String) (acc : GameAcc) :
    acc.maxPt ≤ (gameOtherLoop st ow w2c gs acc).maxPt := by
  induction gs generalizing acc with
  | nil => exact le_refl _
  | cons g gs ih =>
    refine le_trans ?_ (ih _)
    split_ifs with hc
    · rw [addMatch_maxPt]; exact le_max_left _ _
    · exact le_refl _

/-- The free-text channel keeps recorded names. -/
theorem gameOtherLoop_matched_mono {x : String} (st : String)
    (ow : List String) (w2c : List (String × String)) (gs : List String)
    {acc : GameAcc} (h : x ∈ acc.matched) :
    x ∈ (gameOtherLoop st ow w2c gs acc).matched := by
  induction gs generalizing acc with
  | nil => exact h
  | cons g gs ih =>
    refine ih ?_
    split_ifs with hc
    · exact addMatch_mem_mono _ _ h
    · exact h

/-- C5 counterexample (the claim's Scenario C evaluated on the code):
the student text contains the alias 「マイクラ」, the synonym table maps
it to 「マインクラフト」, and the mentor's structured proficiency for
「マインクラフト」 is 3 — yet nothing matches: the game contribution is
0, no canonical name is recorded, and the score is 0, because the
structured channel requires the synonym word to be a case-insensitive
substring of the column's game name (or vice versa), and 「マイクラ」 is
not a substring of 「マインクラフト」. -/
theorem c5_alias_scenario_counterexample :
    get_game_word_map [["マインクラフト", "マイクラ"]]
      = ([("マインクラフト", "マインクラフト"), ("マイクラ", "マインクラフト")],
         ["マインクラフト", "マイクラ"]) ∧
    pyIn "マイクラ"
      (studentTextOf [(declCol, "月"), (interestKey, "マイクラが好き")]) = true ∧
    sgetD [("マインクラフト", "マインクラフト"), ("マイクラ", "マインクラフト")]
      "マイクラ" "マイクラ" = "マインクラフト" ∧
    calculate_matching_score [(declCol, "月"), (interestKey, "マイクラが好き")]
      [(slotKey, "TRUE"), (capacityKey, "1"), ("ゲーム_マインクラフト", "3")]
      ["マインクラフト", "マイクラ"]
      [("マインクラフト", "マインクラフト"), ("マイクラ", "マインクラフト")]
      = .ok (.scored ⟨0, 0, [], (0, 1)⟩) ∧
    scoreOf (.scored ⟨0, 0, [], (0, 1)⟩) = 0 := by
  refine ⟨by decide, by decide, by decide, by decide, ?_⟩
  show scoreReal ⟨0, 0, [], (0, 1)⟩ = 0
  norm_num [scoreReal, simOfSq_zero]

/-- C5 (amended): a structured entry with proficiency ≥ 2 matches
through a synonym word `g` when `g` is case-insensitively
substring-related to the column's game name (in either direction) and
`g` occurs verbatim in the student's concatenated interest text; the
match contributes `proficiency × 5` candidate points (a lower bound of
the final maximum) and records `g`'s canonical name.  In the amended
scenario the student text contains the canonical 「マインクラフト」
itself and proficiency 3 yields exactly 15 points. -/
theorem c5_structured_match_rule :
    (∀ (s m : Series) (glw : List String) (w2c : List (String × String))
        (col val : String) (gv : Int) (g : String) (p : Parts),
      (col, val) ∈ m →
      (strStarts "ゲーム_" col && col != otherGamesKey) = true →
      toNumeric val = some gv → 2 ≤ gv → g ∈ glw →
      structCond (studentTextOf s) (pyReplace col "ゲーム_" "") g = true →
      calculate_matching_score s m glw w2c = .ok (.scored p) →
      gv * 5 ≤ p.maxGamePoint ∧ sgetD w2c g g ∈ p.matchedGames) ∧
    calculate_matching_score [(declCol, "月"), (interestKey, "マインクラフトが好き")]
      [(slotKey, "TRUE"), (capacityKey, "1"), ("ゲーム_マインクラフト", "3")]
      ["マインクラフト", "マイクラ"]
      [("マインクラフト", "マインクラフト"), ("マイクラ", "マインクラフト")]
      = .ok (.scored ⟨0, 15, ["マインクラフト"], (0, 1)⟩) := by
  constructor
  · intro s m glw w2c col val gv g p hmem hpre hnum hgv hg hcond hcalc
    obtain ⟨_, hmax, hmatched, _⟩ := calc_scored_shape hcalc
    rw [hmax, hmatched]
    unfold gameAccOf
    constructor
    · exact le_trans (gameStructLoop_trigger hmem hpre hnum hgv hg hcond).1
        (gameOtherLoop_maxPt_mono _ _ _ _ _)
    · exact gameOtherLoop_matched_mono _ _ _ _
        (gameStructLoop_trigger hmem hpre hnum hgv hg hcond).2
  · decide

/-- C5 witness: the general rule of the amended claim applied at the
amended scenario's concrete input. -/
theorem c5_witness :
    (3 : Int) * 5 ≤ (⟨0, 15, ["マインクラフト"], (0, 1)⟩ : Parts).maxGamePoint ∧
    sgetD [("マインクラフト", "マインクラフト"), ("マイクラ", "マインクラフト")]
        "マインクラフト" "マインクラフト"
      ∈ (⟨0, 15, ["マインクラフト"], (0, 1)⟩ : Parts).matchedGames :=
  c5_structured_match_rule.1
    [(declCol, "月"), (interestKey, "マインクラフトが好き")]
    [(slotKey, "TRUE"), (capacityKey, "1"), ("ゲーム_マインクラフト", "3")]
    ["マインクラフト", "マイクラ"]
    [("マインクラフト", "マインクラフト"), ("マイクラ", "マインクラフト")]
    "ゲーム_マインクラフト" "3" 3 "マインクラフト" ⟨0, 15, ["マインクラフト"], (0, 1)⟩
    (by decide) (by decide) (by decide) (by decide) (by decide) (by decide) (by decide)

/-! ## Claim C7 -/

/-- The candidate point values proposed by the structured channel, one
entry per (qualifying column, matching synonym word) pair, in loop
order. -/
def structCandidates (st : String) (glw : List String) :
    List (String × String) → List Int
  | [] => []
  | (col, val) :: rest =>
    (if strStarts "ゲーム_" col && col != otherGamesKey then
      match toNumeric val with
      | some v =>
        if 2 ≤ v then
          (glw.filter (fun g => structCond st (pyReplace col "ゲーム_" "") g)).map
            (fun _ => v * 5)
        else []
      | none => []
    else []) ++ structCandidates st glw rest

/-- The candidate point values proposed by the free-text channel: a
fixed 15 per matching synonym word. -/
def otherCandidates (st : String) (ow gs : List String) : List Int :=
  (gs.filter (fun g => pyIn g st && ow.any (fun o => pyIn g o))).map (fun _ => 15)

/-- Pulling a `max` out of a `foldr max`. -/
theorem foldr_max_pull (l : List Int) (a x : Int) :
    List.foldr max (max a x) l = max x (List.foldr max a l) := by
  induction l with
  | nil => exact max_comm a x
  | cons y l ih =>
    simp only [List.foldr_cons]
    rw [ih, max_left_comm]

/-- Two `foldr max` passes commute. -/
theorem foldr_max_swap (l1 l2 : List Int) (a : Int) :
    List.foldr max (List.foldr max a l1) l2 =
      List.foldr max (List.foldr max a l2) l1 := by
  induction l1 generalizing a with
  | nil => rfl
  | cons x l1 ih =>
    simp only [List.foldr_cons]
    rw [show max x (List.foldr max a l1) = max (List.foldr max a l1) x from
      max_comm _ _, foldr_max_pull, ih]

/-- The inner loop's running maximum is the fold of its candidate
points. -/
theorem gameInnerLoop_maxPt_eq (st gn : String) (pt : Int)
    (w2c : List (String × String)) (gs : List String) (acc : GameAcc) :
    (gameInnerLoop st gn pt w2c gs acc).maxPt =
      List.foldr max acc.maxPt
        ((gs.filter (fun g => structCond st gn g)).map (fun _ => pt)) := by
  induction gs generalizing acc with
  | nil => rfl
  | cons g gs ih =>
    show (gameInnerLoop st gn pt w2c gs
      (if structCond st gn g then addMatch acc (sgetD w2c g g) pt else acc)).maxPt = _
    by_cases hc : structCond st gn g = true
    · rw [if_pos hc, ih, addMatch_maxPt, List.filter_cons_of_pos hc]
      simp only [List.map_cons, List.foldr_cons]
      exact foldr_max_pull _ _ _
    · rw [if_neg hc, ih,
        List.filter_cons_of_neg (by simpa using hc)]

/-- The structured loop's running maximum is the fold of
`structCandidates`. -/
theorem gameStructLoop_maxPt_eq (st : String) (glw : List String)
    (w2c : List (String × String)) (pairs : List (String × String))
    (acc : GameAcc) :
    (gameStructLoop st glw w2c pairs acc).maxPt =
      List.foldr max acc.maxPt (structCandidates st glw pairs) := by
  induction pairs generalizing acc with
  | nil => rfl
  | cons kv rest ih =>
    obtain ⟨col, val⟩ := kv
    have hstep : ∀ acc2 : GameAcc,
        (if strStarts "ゲーム_" col && col != otherGamesKey then
          match toNumeric val with
          | some v =>
            if 2 ≤ v then
              gameInnerLoop st (pyReplace col "ゲーム_" "") (v * 5) w2c glw acc2
            else acc2
          | none => acc2
        else acc2).maxPt =
        List.foldr max acc2.maxPt
          (if strStarts "ゲーム_" col && col != otherGamesKey then
            match toNumeric val with
            | some v =>
              if 2 ≤ v then
                (glw.filter (fun g =>
                  structCond st (pyReplace col "ゲーム_" "") g)).map (fun _ => v * 5)
              else []
            | none => []
          else []) := by
      intro acc2
      split_ifs with hb
      · cases hn : toNumeric val with
        | none => rfl
        | some v =>
          dsimp only []
          split_ifs with hv
          · exact gameInnerLoop_maxPt_eq st _ _ w2c glw acc2
          · rfl
      · rfl
    show (gameStructLoop st glw w2c rest _).maxPt = _
    rw [ih, hstep]
    conv_rhs => rw [structCandidates]
    rw [List.foldr_append]
    exact foldr_max_swap _ _ _

/-- The free-text loop's running maximum is the fold of
`otherCandidates`. -/
theorem gameOtherLoop_maxPt_eq (st : String) (ow : List String)
    (w2c : List (String × String)) (gs : List String) (acc : GameAcc) :
    (gameOtherLoop st ow w2c gs acc).maxPt =
      List.foldr max acc.maxPt (otherCandidates st ow gs) := by
  induction gs generalizing acc with
  | nil => rfl
  | cons g gs ih =>
    show (gameOtherLoop st ow w2c gs
      (if pyIn g st && ow.any (fun o => pyIn g o)
        then addMatch acc (sgetD w2c g g) 15 else acc)).maxPt = _
    by_cases hc : (pyIn g st && ow.any (fun o => pyIn g o)) = true
    · rw [if_pos hc, ih, addMatch_maxPt]
      unfold otherCandidates
      rw [show List.filter (fun x => pyIn x st && ow.any fun o => pyIn x o) (g :: gs)
          = g :: List.filter (fun x => pyIn x st && ow.any fun o => pyIn x o) gs from by
        simp [List.filter_cons, hc]]
      simp only [List.map_cons, List.foldr_cons]
      exact foldr_max_pull _ _ _
    · rw [if_neg hc, ih]
      unfold otherCandidates
      rw [show List.filter (fun x => pyIn x st && ow.any fun o => pyIn x o) (g :: gs)
          = List.filter (fun x => pyIn x st && ow.any fun o => pyIn x o) gs from by
        simp [List.filter_cons, hc]]

/-- C7: the game-affinity contribution is the single maximum over all
candidate points of both channels (structured entries propose
`proficiency × 5`, free-text matches propose 15), never their sum; at
the concrete two-game input the candidates are `[15, 25]` and the
contribution is 25 (and 25 ≠ 15 + 25). -/
theorem c7_game_contribution_is_max :
    (∀ (st : String) (m : Series) (glw : List String)
        (w2c : List (String × String)),
      (gameAccOf st m glw w2c).maxPt =
        List.foldr max 0 (structCandidates st glw m ++
          otherCandidates st (reSplitSeps (sgetD m otherGamesKey "")) glw)) ∧
    structCandidates (studentTextOf [(declCol, "月"), (strengthsKey, "ABCD")])
        ["AB", "CD"]
        [(slotKey, "TRUE"), (capacityKey, "1"), ("ゲーム_AB", "3"), ("ゲーム_CD", "5")]
      = [15, 25] ∧
    calculate_matching_score [(declCol, "月"), (strengthsKey, "ABCD")]
      [(slotKey, "TRUE"), (capacityKey, "1"), ("ゲーム_AB", "3"), ("ゲーム_CD", "5")]
      ["AB", "CD"] [("AB", "AB"), ("CD", "CD")]
      = .ok (.scored ⟨0, 25, ["AB", "CD"], (0, 1)⟩) ∧
    (25 : Int) ≠ 15 + 25 := by
  refine ⟨?_, by decide, by decide, by decide⟩
  intro st m glw w2c
  unfold gameAccOf
  rw [gameOtherLoop_maxPt_eq, gameStructLoop_maxPt_eq, List.foldr_append]
  exact foldr_max_swap _ _ _

/-! ## Claim C10 -/

/-- Every character of a zero-run is a digit. -/
theorem replicate_zero_all_digit (k : Nat) :
    (List.replicate k '0').all Char.isDigit = true := by
  induction k with
  | zero => rfl
  | succ k ih =>
    rw [List.replicate_succ, List.all_cons, ih]
    decide

/-- Folding the digit accumulator over a zero-run multiplies by a
power of ten. -/
theorem foldl_digits_replicate_zero (k a : Nat) :
    List.foldl (fun a c => 10 * a + digVal c) a (List.replicate k '0')
      = a * 10 ^ k := by
  induction k generalizing a with
  | zero => simp
  | succ k ih =>
    rw [List.replicate_succ, List.foldl_cons, ih]
    show (10 * a + digVal '0') * 10 ^ k = a * 10 ^ (k + 1)
    rw [show digVal '0' = 0 from rfl]
    ring

/-- `parseDigits` on the numeral `1·10^k`. -/
theorem parseDigits_one_replicate_zero (k : Nat) :
    parseDigits ('1' :: List.replicate k '0') = some (10 ^ k) := by
  unfold parseDigits
  rw [if_pos ⟨by simp, by rw [List.all_cons, replicate_zero_all_digit]; decide⟩]
  rw [List.foldl_cons, foldl_digits_replicate_zero]
  rw [show (10 * 0 + digVal '1') = 1 from rfl]
  rw [one_mul]

/-- The numeral `1·10^k` contains no whitespace to strip. -/
theorem pyStrip_one_replicate_zero (k : Nat) :
    pyStrip ⟨'1' :: List.replicate k '0'⟩ = ⟨'1' :: List.replicate k '0'⟩ := by
  have hdrop : List.dropWhile isPySpace (List.replicate k '0' ++ ['1'])
      = List.replicate k '0' ++ ['1'] := by
    cases k with
    | zero => decide
    | succ k2 =>
      rw [List.replicate_succ, List.cons_append, List.dropWhile_cons]
      rw [show isPySpace '0' = false from rfl]
      simp
  unfold pyStrip
  congr 1
  show ((List.dropWhile isPySpace ('1' :: List.replicate k '0')).reverse.dropWhile
      isPySpace).reverse = '1' :: List.replicate k '0'
  rw [List.dropWhile_cons, show isPySpace '1' = false from rfl]
  simp only [Bool.false_eq_true, if_false]
  rw [List.reverse_cons, List.reverse_replicate, hdrop]
  simp [List.reverse_append, List.reverse_replicate]

/-- `parseInt` (and hence `toNumeric`) round-trips the numeral
`1·10^k`. -/
theorem parseInt_one_replicate_zero (k : Nat) :
    parseInt ⟨'1' :: List.replicate k '0'⟩ = some ((10 : Int) ^ k) := by
  unfold parseInt
  rw [pyStrip_one_replicate_zero]
  dsimp only []
  rw [if_neg (by decide), if_neg (by decide), parseDigits_one_replicate_zero]
  simp

/-- C10: the composite score has no fixed upper bound: for every real
bound `B` there is an eligible input whose structured game proficiency
makes the game contribution `proficiency × 5` — and hence the returned
score — exceed `B`. -/
theorem c10_score_unbounded (B : ℝ) :
    ∃ (s m : Series) (glw : List String) (w2c : List (String × String))
      (p : Parts),
      calculate_matching_score s m glw w2c = .ok (.scored p) ∧
      p.genderBonus = 0 ∧ p.hobbySimSq = (0, 1) ∧
      scoreOf (.scored p) = (p.maxGamePoint : ℝ) ∧
      B < (p.maxGamePoint : ℝ) := by
  obtain ⟨n, hn⟩ := exists_nat_gt B
  refine ⟨[(declCol, "月"), (strengthsKey, "AB")],
    [(slotKey, "TRUE"), (capacityKey, "1"),
      ("ゲーム_AB", ⟨'1' :: List.replicate (n + 1) '0'⟩)],
    ["AB"], [("AB", "AB")],
    ⟨0, (10 : Int) ^ (n + 1) * 5, ["AB"], (0, 1)⟩, ?_, rfl, rfl, ?_, ?_⟩
  · -- evaluation of the pipeline at the symbolic proficiency cell
    have hnum : toNumeric ⟨'1' :: List.replicate (n + 1) '0'⟩
        = some ((10 : Int) ^ (n + 1)) := parseInt_one_replicate_zero (n + 1)
    have h2k : (2 : Int) ≤ 10 ^ (n + 1) := by
      calc (2 : Int) ≤ 10 ^ 1 := by norm_num
      _ ≤ 10 ^ (n + 1) := pow_le_pow_right₀ (by norm_num) (by omega)
    have hpt : (0 : Int) < 10 ^ (n + 1) * 5 := by positivity
    have hstruct : gameStructLoop "AB" ["AB"] [("AB", "AB")]
        [(slotKey, "TRUE"), (capacityKey, "1"),
          ("ゲーム_AB", ⟨'1' :: List.replicate (n + 1) '0'⟩)] ⟨[], 0⟩
        = ⟨["AB"], (10 : Int) ^ (n + 1) * 5⟩ := by
      show gameStructLoop "AB" ["AB"] [("AB", "AB")]
        [("ゲーム_AB", ⟨'1' :: List.replicate (n + 1) '0'⟩)] ⟨[], 0⟩ = _
      show (gameStructLoop "AB" ["AB"] [("AB", "AB")] []
        (if (strStarts "ゲーム_" "ゲーム_AB" && "ゲーム_AB" != otherGamesKey) = true then
          match toNumeric ⟨'1' :: List.replicate (n + 1) '0'⟩ with
          | some v =>
            if 2 ≤ v then
              gameInnerLoop "AB" (pyReplace "ゲーム_AB" "ゲーム_" "") (v * 5)
                [("AB", "AB")] ["AB"] ⟨[], 0⟩
            else ⟨[], 0⟩
          | none => ⟨[], 0⟩
        else ⟨[], 0⟩)) = _
      rw [if_pos (by decide), hnum]
      dsimp only []
      rw [if_pos h2k]
      show (if structCond "AB" (pyReplace "ゲーム_AB" "ゲーム_" "") "AB" = true then
          addMatch ⟨[], 0⟩ (sgetD [("AB", "AB")] "AB" "AB") ((10 : Int) ^ (n + 1) * 5)
        else ⟨[], 0⟩) = _
      rw [if_pos (by decide)]
      show addMatch ⟨[], 0⟩ "AB" ((10 : Int) ^ (n + 1) * 5) = _
      simp [addMatch, hpt]
    have hacc : gameAccOf "AB"
        [(slotKey, "TRUE"), (capacityKey, "1"),
          ("ゲーム_AB", ⟨'1' :: List.replicate (n + 1) '0'⟩)] ["AB"] [("AB", "AB")]
        = ⟨["AB"], (10 : Int) ^ (n + 1) * 5⟩ := by
      unfold gameAccOf
      rw [hstruct]
      rfl
    have hAG : afterGate "AB"
        [(slotKey, "TRUE"), (capacityKey, "1"),
          ("ゲーム_AB", ⟨'1' :: List.replicate (n + 1) '0'⟩)] ["AB"] [("AB", "AB")] 0
        = .ok (.scored ⟨0, (10 : Int) ^ (n + 1) * 5, ["AB"], (0, 1)⟩) := by
      unfold afterGate
      rw [show calculate_text_similarity_sq "AB"
          (mentorHobbyTextOf [(slotKey, "TRUE"), (capacityKey, "1"),
            ("ゲーム_AB", ⟨'1' :: List.replicate (n + 1) '0'⟩)]) = .ok (0, 1) from rfl]
      rw [hacc]
    rw [@calc_after_gates [(declCol, "月"), (strengthsKey, "AB")]
      [(slotKey, "TRUE"), (capacityKey, "1"),
        ("ゲーム_AB", ⟨'1' :: List.replicate (n + 1) '0'⟩)]
      ["AB"] [("AB", "AB")] 1 rfl rfl (le_refl 1)]
    have hpref : pyStrip (sgetD [(declCol, "月"), (strengthsKey, "AB")]
        genderPrefKey "") = "" := rfl
    have hsg : pyStrip (sgetD [(declCol, "月"), (strengthsKey, "AB")]
        studentGenderKey "") = "" := rfl
    rw [if_neg (by rw [hpref]; simp), if_neg (by rw [hsg]; simp)]
    exact hAG
  · show scoreReal _ = _
    norm_num [scoreReal, simOfSq_zero]
  · have h1 : n < 10 ^ (n + 1) :=
      lt_of_lt_of_le (Nat.lt_pow_self (by norm_num) n)
        (Nat.pow_le_pow_right (by norm_num) (Nat.le_succ n))
    have h2 : ((10 : Int) ^ (n + 1) * 5 : ℤ) = ((10 ^ (n + 1) * 5 : ℕ) : ℤ) := by
      push_cast
      ring
    rw [h2]
    push_cast
    calc B < n := hn
    _ < (10 : ℝ) ^ (n + 1) := by exact_mod_cast h1
    _ ≤ (10 : ℝ) ^ (n + 1) * 5 := by nlinarith [pow_pos (show (0:ℝ) < 10 by norm_num) (n + 1)]

/-! ## Claim C8 -/

/-- Every surviving row of the score filter has a positive score. -/
theorem mem_filterPos_pos {a : Series × ℝ} {l : List (Series × ℝ)}
    (h : a ∈ filterPos l) : 0 < a.2 := by
  induction l with
  | nil => simp [filterPos] at h
  | cons x xs ih =>
    unfold filterPos at h
    split_ifs at h with hc
    · rcases List.mem_cons.mp h with rfl | h2
      · exact hc
      · exact ih h2
    · exact ih h

/-- One scoring step of the mentor loop. -/
theorem scoreAll_cons {student : Series} {glw : List String}
    {w2c : List (String × String)} {m : Series} {ms : List Series}
    {r : MatchOutcome} {rest : List (Series × ℝ)}
    (h1 : calculate_matching_score student (coerceCapacity m) glw w2c = .ok r)
    (h2 : scoreAll student glw w2c ms = .ok rest) :
    scoreAll student glw w2c (m :: ms) = .ok ((m, scoreOf r) :: rest) := by
  unfold scoreAll
  rw [h1, h2]

/-- The Scenario D student: Monday slot, gender 女, game text. -/
def c8student : Series := [(declCol, "月"), (studentGenderKey, "女"), (strengthsKey, "ABC")]

/-- Scenario D mentor with raw score 80 (gender bonus 10 + game 70). -/
def c8m1 : Series :=
  [(slotKey, "TRUE"), (capacityKey, "2"), (mentorGenderKey, "女"), ("ゲーム_AB", "14")]

/-- Scenario D mentor with raw score 10 (gender bonus only). -/
def c8m2 : Series :=
  [(slotKey, "TRUE"), (capacityKey, "2"), (mentorGenderKey, "女")]

/-- Scenario D mentor with raw score 0 (eligible, no factors). -/
def c8m3 : Series :=
  [(slotKey, "TRUE"), (capacityKey, "2"), (mentorGenderKey, "男")]

/-- Scenario D mentor with raw score 55 (gender bonus 10 + game 45). -/
def c8m4 : Series :=
  [(slotKey, "TRUE"), (capacityKey, "2"), (mentorGenderKey, "女"), ("ゲーム_AB", "9")]

/-- Scenario D mentor with raw score 30 (game only). -/
def c8m5 : Series :=
  [(slotKey, "TRUE"), (capacityKey, "2"), (mentorGenderKey, "男"), ("ゲーム_AB", "6")]


/-- Two descending permutations of the same rows coincide when the
first has pairwise-distinct scores: without ties, the descending order
is unique. -/
theorem sorted_perm_eq_of_distinct {l1 l2 : List (Series × ℝ)}
    (hp : l1.Perm l2)
    (h1 : l1.Pairwise (fun a b => b.2 ≤ a.2))
    (h2 : l2.Pairwise (fun a b => b.2 ≤ a.2))
    (hd : l1.Pairwise (fun a b => a.2 ≠ b.2)) : l1 = l2 := by
  induction l1 generalizing l2 with
  | nil => rw [List.Perm.eq_nil hp.symm]
  | cons a t1 ih =>
    cases l2 with
    | nil => cases List.Perm.eq_nil hp
    | cons b t2 =>
      by_cases hab : a = b
      · subst hab
        rw [ih ((List.perm_cons a).mp hp) (List.pairwise_cons.mp h1).2
          (List.pairwise_cons.mp h2).2 (List.pairwise_cons.mp hd).2]
      · exfalso
        have hb_t1 : b ∈ t1 := by
          rcases List.mem_cons.mp (hp.symm.subset (List.mem_cons_self b t2)) with h | h
          · exact absurd h.symm hab
          · exact h
        have ha_t2 : a ∈ t2 := by
          rcases List.mem_cons.mp (hp.subset (List.mem_cons_self a t1)) with h | h
          · exact absurd h hab
          · exact h
        exact (List.pairwise_cons.mp hd).1 b hb_t1
          (le_antisymm ((List.pairwise_cons.mp h2).1 a ha_t2)
            ((List.pairwise_cons.mp h1).1 b hb_t1))

/-- A mentor that ties another at raw score 10 (gender bonus only). -/
def c8tieA : Series :=
  [(slotKey, "TRUE"), (capacityKey, "2"), (mentorGenderKey, "女"), ("ニックネーム", "A")]

/-- A second, distinct mentor with the same raw score 10. -/
def c8tieB : Series :=
  [(slotKey, "TRUE"), (capacityKey, "2"), (mentorGenderKey, "女"), ("ニックネーム", "B")]

/-- C8 counterexample: the claim says the ranking *stable-sorts* by
score descending, i.e. equal scores keep their input order.  The
source sorts with `sort_values` under pandas' default
`kind='quicksort'`, which is not stable, so the code only guarantees
some descending permutation: for two distinct mentors that tie at
score 10, the tie-swapped output is an admissible result of the
ranking block alongside the stable one, and the two differ — the
stable order is not established by the code. -/
theorem c8_stable_sort_counterexample :
    RankOutcome c8student [c8tieA, c8tieB] [] [] [(c8tieA, 10), (c8tieB, 10)] ∧
    RankOutcome c8student [c8tieA, c8tieB] [] [] [(c8tieB, 10), (c8tieA, 10)] ∧
    [(c8tieA, (10 : ℝ)), (c8tieB, 10)] ≠ [(c8tieB, 10), (c8tieA, 10)] := by
  have eA : calculate_matching_score c8student (coerceCapacity c8tieA) [] []
      = .ok (.scored ⟨10, 0, [], (0, 1)⟩) := by decide
  have eB : calculate_matching_score c8student (coerceCapacity c8tieB) [] []
      = .ok (.scored ⟨10, 0, [], (0, 1)⟩) := by decide
  have scT : scoreOf (.scored ⟨10, 0, [], (0, 1)⟩) = (10 : ℝ) := by
    show scoreReal _ = _
    norm_num [scoreReal, simOfSq_zero]
  have hall : scoreAll c8student [] [] [c8tieA, c8tieB]
      = .ok [(c8tieA, 10), (c8tieB, 10)] := by
    have h2 := scoreAll_cons eB (rfl : scoreAll c8student [] [] [] = .ok [])
    have h1 := scoreAll_cons eA h2
    rw [scT] at h1
    exact h1
  have hfil : filterPos [(c8tieA, 10), (c8tieB, 10)]
      = [(c8tieA, 10), (c8tieB, 10)] := by
    simp only [filterPos]
    norm_num
  refine ⟨⟨[(c8tieA, 10), (c8tieB, 10)], [(c8tieA, 10), (c8tieB, 10)],
      hall, ⟨?_, ?_⟩, rfl⟩,
    ⟨[(c8tieA, 10), (c8tieB, 10)], [(c8tieB, 10), (c8tieA, 10)],
      hall, ⟨?_, ?_⟩, rfl⟩, ?_⟩
  · rw [hfil]
  · norm_num [List.pairwise_cons]
  · rw [hfil]
    exact List.Perm.swap _ _ _
  · norm_num [List.pairwise_cons]
  · intro h
    have hAB : c8tieA = c8tieB := congrArg Prod.fst (List.cons.inj h).1
    exact absurd hAB (by decide)

/-- C8 (amended): the ranking block scores every mentor, discards
score-0 entries, sorts the remainder descending by score with the tie
order left unspecified (pandas' default quicksort is not stable), and
returns at most the top 10.  Every admissible output is descending, of
length at most 10, and all-positive; on the five Scenario D mentors
with raw scores `[80, 10, 0, 55, 30]` — all distinct — the admissible
output is unique and its scores are `[80, 55, 30, 10]` in that
order. -/
theorem c8_rank_pipeline_desc :
    (∀ (s : Series) (ms : List Series) (glw : List String)
        (w2c : List (String × String)) (l : List (Series × ℝ)),
      RankOutcome s ms glw w2c l →
      l.length ≤ 10 ∧ l.Pairwise (fun a b => b.2 ≤ a.2) ∧ ∀ x ∈ l, 0 < x.2) ∧
    (scoreAll c8student ["AB"] [("AB", "AB")] [c8m1, c8m2, c8m3, c8m4, c8m5]
      = .ok [(c8m1, 80), (c8m2, 10), (c8m3, 0), (c8m4, 55), (c8m5, 30)]) ∧
    RankOutcome c8student [c8m1, c8m2, c8m3, c8m4, c8m5] ["AB"] [("AB", "AB")]
      [(c8m1, 80), (c8m4, 55), (c8m5, 30), (c8m2, 10)] ∧
    (∀ l, RankOutcome c8student [c8m1, c8m2, c8m3, c8m4, c8m5] ["AB"] [("AB", "AB")] l →
      l = [(c8m1, 80), (c8m4, 55), (c8m5, 30), (c8m2, 10)]) ∧
    [(c8m1, (80 : ℝ)), (c8m4, 55), (c8m5, 30), (c8m2, 10)].map (fun x => x.2)
      = [80, 55, 30, 10] := by
  have huniv : ∀ (s : Series) (ms : List Series) (glw : List String)
      (w2c : List (String × String)) (l : List (Series × ℝ)),
      RankOutcome s ms glw w2c l →
      l.length ≤ 10 ∧ l.Pairwise (fun a b => b.2 ≤ a.2) ∧ ∀ x ∈ l, 0 < x.2 := by
    intro s ms glw w2c l hl
    obtain ⟨scored, sorted, _, ⟨hperm, hsorted⟩, hl10⟩ := hl
    subst hl10
    refine ⟨List.length_take_le _ _,
      List.Pairwise.sublist (List.take_sublist _ _) hsorted, ?_⟩
    intro x hx
    exact mem_filterPos_pos (hperm.symm.subset (List.mem_of_mem_take hx))
  have e1 : calculate_matching_score c8student (coerceCapacity c8m1)
      ["AB"] [("AB", "AB")] = .ok (.scored ⟨10, 70, ["AB"], (0, 1)⟩) := by decide
  have e2 : calculate_matching_score c8student (coerceCapacity c8m2)
      ["AB"] [("AB", "AB")] = .ok (.scored ⟨10, 0, [], (0, 1)⟩) := by decide
  have e3 : calculate_matching_score c8student (coerceCapacity c8m3)
      ["AB"] [("AB", "AB")] = .ok (.scored ⟨0, 0, [], (0, 1)⟩) := by decide
  have e4 : calculate_matching_score c8student (coerceCapacity c8m4)
      ["AB"] [("AB", "AB")] = .ok (.scored ⟨10, 45, ["AB"], (0, 1)⟩) := by decide
  have e5 : calculate_matching_score c8student (coerceCapacity c8m5)
      ["AB"] [("AB", "AB")] = .ok (.scored ⟨0, 30, ["AB"], (0, 1)⟩) := by decide
  have sc1 : scoreOf (.scored ⟨10, 70, ["AB"], (0, 1)⟩) = (80 : ℝ) := by
    show scoreReal _ = _
    norm_num [scoreReal, simOfSq_zero]
  have sc2 : scoreOf (.scored ⟨10, 0, [], (0, 1)⟩) = (10 : ℝ) := by
    show scoreReal _ = _
    norm_num [scoreReal, simOfSq_zero]
  have sc3 : scoreOf (.scored ⟨0, 0, [], (0, 1)⟩) = (0 : ℝ) := by
    show scoreReal _ = _
    norm_num [scoreReal, simOfSq_zero]
  have sc4 : scoreOf (.scored ⟨10, 45, ["AB"], (0, 1)⟩) = (55 : ℝ) := by
    show scoreReal _ = _
    norm_num [scoreReal, simOfSq_zero]
  have sc5 : scoreOf (.scored ⟨0, 30, ["AB"], (0, 1)⟩) = (30 : ℝ) := by
    show scoreReal _ = _
    norm_num [scoreReal, simOfSq_zero]
  have hall : scoreAll c8student ["AB"] [("AB", "AB")]
      [c8m1, c8m2, c8m3, c8m4, c8m5]
      = .ok [(c8m1, 80), (c8m2, 10), (c8m3, 0), (c8m4, 55), (c8m5, 30)] := by
    have h5 := scoreAll_cons e5
      (rfl : scoreAll c8student ["AB"] [("AB", "AB")] [] = .ok [])
    have h4 := scoreAll_cons e4 h5
    have h3 := scoreAll_cons e3 h4
    have h2 := scoreAll_cons e2 h3
    have h1 := scoreAll_cons e1 h2
    rw [sc1, sc2, sc3, sc4, sc5] at h1
    exact h1
  have hfil : filterPos [(c8m1, 80), (c8m2, 10), (c8m3, 0), (c8m4, 55), (c8m5, 30)]
      = [(c8m1, 80), (c8m2, 10), (c8m4, 55), (c8m5, 30)] := by
    simp only [filterPos]
    norm_num
  have hFT : [(c8m1, (80 : ℝ)), (c8m2, 10), (c8m4, 55), (c8m5, 30)].Perm
      [(c8m1, 80), (c8m4, 55), (c8m5, 30), (c8m2, 10)] := by
    refine List.Perm.cons _ ?_
    exact List.Perm.trans
      (List.Perm.swap ((c8m4 : Series), (55 : ℝ)) ((c8m2 : Series), (10 : ℝ)) _)
      (List.Perm.cons _ (List.Perm.swap ((c8m5 : Series), (30 : ℝ))
        ((c8m2 : Series), (10 : ℝ)) _))
  have htsorted : [(c8m1, (80 : ℝ)), (c8m4, 55), (c8m5, 30), (c8m2, 10)].Pairwise
      (fun a b => b.2 ≤ a.2) := by
    norm_num [List.pairwise_cons]
  have htdistinct : [(c8m1, (80 : ℝ)), (c8m4, 55), (c8m5, 30), (c8m2, 10)].Pairwise
      (fun a b => a.2 ≠ b.2) := by
    norm_num [List.pairwise_cons]
  refine ⟨huniv, hall, ?_, ?_, by simp⟩
  · exact ⟨[(c8m1, 80), (c8m2, 10), (c8m3, 0), (c8m4, 55), (c8m5, 30)],
      [(c8m1, 80), (c8m4, 55), (c8m5, 30), (c8m2, 10)],
      hall, ⟨by rw [hfil]; exact hFT, htsorted⟩, rfl⟩
  · intro l hl
    obtain ⟨scored, sorted, hs, ⟨hperm, hsorted⟩, hl10⟩ := hl
    rw [hall] at hs
    have hsc := Except.ok.inj hs
    rw [← hsc, hfil] at hperm
    have heq := sorted_perm_eq_of_distinct (hFT.symm.trans hperm)
      htsorted hsorted htdistinct
    rw [hl10, ← heq]
    rfl

/-- C8 witness: the universal properties of the ranking relation
applied at the Scenario D input and its admissible output. -/
theorem c8_witness :
    [(c8m1, (80 : ℝ)), (c8m4, 55), (c8m5, 30), (c8m2, 10)].length ≤ 10 ∧
    [(c8m1, (80 : ℝ)), (c8m4, 55), (c8m5, 30), (c8m2, 10)].Pairwise
      (fun a b => b.2 ≤ a.2) ∧
    ∀ x ∈ [(c8m1, (80 : ℝ)), (c8m4, 55), (c8m5, 30), (c8m2, 10)], 0 < x.2 :=
  c8_rank_pipeline_desc.1 c8student [c8m1, c8m2, c8m3, c8m4, c8m5]
    ["AB"] [("AB", "AB")] _ c8_rank_pipeline_desc.2.2.1
